import Mathlib

/-!
Shallow embedding of the Luyumi-Launcher backend core
(`src/lib/backend/src/services`): the download retry loop and stall
detection (`DownloadService.py`), the patch-artifact cache logic and
progress mapping (`GameService.py`), the tool provisioning fast path
(`ButlerService.py`), the repair flow and extraction skip logic
(`ExtractionService.py`), the skin restore priority and monitor state
machine (`SkinMonitorService.py`), and the launch argument construction
(`GameService.py`).
-/

namespace Luyumi

/-! ### String helpers

Python classifies retryable download errors with
`str(e).lower()` substring tests, and the cache logic uses
`file.endswith('.pwr')`.  We embed the needed string operations over
`List Char`. -/

/-- `charsStartWith s t` holds when `t` is an initial segment of `s`. -/
def charsStartWith : List Char → List Char → Bool
  | _, [] => true
  | [], _ :: _ => false
  | c :: cs, d :: ds => c == d && charsStartWith cs ds

/-- `charsContain s t`: `t` occurs as a contiguous run inside `s`
(Python `t in s`). -/
def charsContain : List Char → List Char → Bool
  | [], t => t.isEmpty
  | c :: cs, t => charsStartWith (c :: cs) t || charsContain cs t

/-- Python `t in s` on strings. -/
def strContainsSub (s t : String) : Bool :=
  charsContain s.toList t.toList

/-- Python `s.lower()` (ASCII case folding, as used on error messages). -/
def pyLower (s : String) : String :=
  ⟨s.toList.map Char.toLower⟩

/-- Python `s.endswith(t)`. -/
def strEndsWith (s t : String) : Bool :=
  charsStartWith s.toList.reverse t.toList.reverse

/-! ### DownloadService.download_file (retry loop)

`download_file` loops `while attempt < max_retries`, delegating each
attempt to `_download_file_internal`.  On an exception it lowercases the
message, tests the retryable keywords, and either sleeps `2 * attempt`
seconds and retries, or breaks and re-raises; with no recorded error it
raises the generic fallback.  We embed the loop over an oracle
`attemptOutcome : Nat → Except String Nat` giving each (1-based)
attempt's result: an error message or a downloaded size. -/

/-- The retryable keyword list of `DownloadService.download_file`. -/
def retryableKeywords : List String :=
  ["timeout", "stalled", "connection", "reset", "refused"]

/-- `is_retryable` computation of `download_file`: lowercase the message
and test each keyword for substring occurrence. -/
def isRetryable (msg : String) : Bool :=
  retryableKeywords.any (fun k => strContainsSub (pyLower msg) k)

/-- Observable outcome of one `download_file` call: how many attempts
ran, the backoff delays slept between attempts, and the final result
(the raised message, or the downloaded size). -/
structure DownloadRun where
  attemptsMade : Nat
  sleeps : List Nat
  result : Except String Nat
  deriving Repr

/-- Fallback message raised when the loop body never ran. -/
def maxRetriesMsg : String := "Download failed after maximum retries"

/-- The `while attempt < max_retries` loop of `download_file`.
`attempt` is the number of attempts already made, `lastError` the last
recorded exception message, `sleeps` the delays slept so far. -/
def downloadFileAux (attemptOutcome : Nat → Except String Nat) (maxRetries : Int)
    (attempt : Nat) (lastError : Option String) (sleeps : List Nat) : DownloadRun :=
  if _h : (attempt : Int) < maxRetries then
    let a := attempt + 1
    match attemptOutcome a with
    | .ok r => { attemptsMade := a, sleeps := sleeps, result := .ok r }
    | .error e =>
        if !isRetryable e || (a : Int) == maxRetries then
          { attemptsMade := a, sleeps := sleeps, result := .error e }
        else
          downloadFileAux attemptOutcome maxRetries a (some e) (sleeps ++ [2 * a])
  else
    { attemptsMade := attempt, sleeps := sleeps,
      result := .error (lastError.getD maxRetriesMsg) }
termination_by (maxRetries - attempt).toNat
decreasing_by
  omega

/-- `DownloadService.download_file`, abstracted over the per-attempt
outcome oracle. -/
def downloadFile (attemptOutcome : Nat → Except String Nat) (maxRetries : Int) : DownloadRun :=
  downloadFileAux attemptOutcome maxRetries 0 none []

/-! ### DownloadService._download_file_internal (stall detection)

The transfer loop iterates response chunks; a nonempty chunk is written
and refreshes `last_chunk_time`, then the loop raises
`"Download stalled (30s without data)"` when more than 30 seconds passed
since the last data.  We embed the loop over a trace of chunk events,
each with an arrival time (seconds, rational) and a byte count (0 for a
keep-alive chunk). -/

/-- One iteration of the chunk loop: arrival time and byte count. -/
structure ChunkEvent where
  time : ℚ
  bytes : Nat
  deriving Repr, DecidableEq

/-- The stall error message of `_download_file_internal`. -/
def stallMsg : String := "Download stalled (30s without data)"

/-- One body iteration of the chunk loop.  State is
`(last_chunk_time, downloaded_size)`. -/
def chunkStep (st : ℚ × Nat) (ev : ChunkEvent) : Except String (ℚ × Nat) :=
  let st' := if ev.bytes ≠ 0 then (ev.time, st.2 + ev.bytes) else st
  if ev.time - st'.1 > 30 then .error stallMsg else .ok st'

/-- The chunk loop of `_download_file_internal` over a trace of events. -/
def runChunks (st : ℚ × Nat) : List ChunkEvent → Except String (ℚ × Nat)
  | [] => .ok st
  | ev :: rest =>
    match chunkStep st ev with
    | .error e => .error e
    | .ok st' => runChunks st' rest

/-! ### GameService progress record

`GameService.install_progress` is a single process-wide record
`{percent, message, status}` overwritten by `set_progress_state`. -/

/-- The shared progress record of `GameService`. -/
structure Progress where
  percent : Int
  message : String
  status : String
  deriving Repr, DecidableEq

/-- `GameService.set_progress_state` (last-writer-wins overwrite). -/
def setProgressState (percent : Int) (message status : String) : Progress :=
  { percent := percent, message := message, status := status }

/-- Python `int()` on a rational: truncation toward zero. -/
def pyInt (q : ℚ) : Int :=
  if 0 ≤ q then ⌊q⌋ else ⌈q⌉

/-- The `on_progress` callback defined inside `GameService._download_patch`:
maps download percent into the 10–60% band and overwrites the progress
record with status `"installing"`. -/
def downloadPatchOnProgress (downloaded total : Nat) (percent : ℚ) : Progress :=
  let mappedPercent : ℚ := 10 + percent * (1 / 2)
  let mbDownloaded : Nat := downloaded / (1024 * 1024)
  let mbTotal : Nat := total / (1024 * 1024)
  setProgressState (pyInt mappedPercent)
    ("Downloading: " ++ toString mbDownloaded ++ "MB / " ++ toString mbTotal ++ "MB")
    "installing"

/-! ### Patch artifact cache (GameService._download_patch)

A cache directory entry, with what
`ExtractionService.validate_pwr_file` inspects: whether the path is a
regular file, its size, readability, and its modification time. -/

/-- One file in the cache directory. -/
structure CacheFile where
  name : String
  isFile : Bool
  size : Nat
  readable : Bool
  mtime : ℚ
  deriving Repr, DecidableEq

/-- `ExtractionService.validate_pwr_file` as a predicate: the checks are
regular file, size at least 10MB, and readability (existence is
membership in the modelled directory listing). -/
def validatePwrFile (f : CacheFile) : Bool :=
  f.isFile && decide (10 * 1024 * 1024 ≤ f.size) && f.readable

/-- The version-derived cache key `temp_<lastUpdated>.pwr`. -/
def destFileName (lastUpdated : String) : String :=
  "temp_" ++ lastUpdated ++ ".pwr"

/-- Candidate ordering of `_download_patch`: all `.pwr` files of the
cache directory, with the current-key file moved to the front when
present, and otherwise sorted by modification time, newest first
(Python `list.sort(key=..., reverse=True)`, a stable sort). -/
def pwrCandidates (cache : List CacheFile) (destName : String) : List CacheFile :=
  let pwrFiles := cache.filter (fun f => strEndsWith f.name ".pwr")
  if pwrFiles.any (fun f => f.name == destName) then
    pwrFiles.filter (fun f => f.name == destName) ++
      pwrFiles.filter (fun f => f.name != destName)
  else
    List.insertionSort (fun a b => b.mtime ≤ a.mtime) pwrFiles

/-- The candidate scan of `_download_patch`: the first candidate passing
`validate_pwr_file` is kept (the loop breaks), every candidate failing
it before that point is removed (`os.remove`). Returns the chosen file
and the names removed. -/
def scanForValid : List CacheFile → Option CacheFile × List String
  | [] => (none, [])
  | f :: rest =>
    if validatePwrFile f then (some f, [])
    else
      let r := scanForValid rest
      (r.1, f.name :: r.2)

/-- Observable outcome of `GameService._download_patch`. -/
structure PatchFetchResult where
  returnedPath : String
  downloaded : Bool
  removedInvalid : List String
  purged : List String
  progressAfter : Progress
  deriving Repr, DecidableEq

/-- `GameService._download_patch` over the cache directory listing.  On
reuse it returns the first valid cached candidate; otherwise it
downloads to the current key and then `_cleanup_old_patches` removes
every remaining `.pwr` file other than the kept key. -/
def downloadPatch (cache : List CacheFile) (lastUpdated : String) : PatchFetchResult :=
  let destName := destFileName lastUpdated
  let cands := pwrCandidates cache destName
  match scanForValid cands with
  | (some f, removed) =>
    { returnedPath := f.name, downloaded := false, removedInvalid := removed, purged := [],
      progressAfter := setProgressState 60 ("Using cached patch: " ++ f.name) "installing" }
  | (none, removed) =>
    { returnedPath := destName, downloaded := true, removedInvalid := removed,
      purged := (cache.filter (fun f =>
          strEndsWith f.name ".pwr" && f.name != destName && !(removed.contains f.name))).map
        (fun f => f.name),
      progressAfter := setProgressState 60 "Download complete" "installing" }

/-! ### ButlerService.install_butler (tool provisioning fast path)

`install_butler` calls `_kill_existing_butler()` first (line 72,
unconditionally), and only then checks whether a non-empty binary
already exists at the expected path (lines 74–77), returning it
unchanged in that case.  The mirror-download continuation — reached only
when no non-empty binary is present — is abstracted by the size and
content of the binary it installs on success. -/

/-- Filesystem/process state relevant to `install_butler`. -/
structure ButlerFileState where
  binExists : Bool
  binSize : Nat
  binContent : Nat
  running : Bool
  deriving Repr, DecidableEq

/-- Observable outcome of one `install_butler` call. -/
structure ButlerResult where
  killedBeforeCheck : Bool
  downloaded : Bool
  final : ButlerFileState
  deriving Repr, DecidableEq

/-- `ButlerService.install_butler`: the unconditional kill, then the
non-empty-binary fast path, else the download path. -/
def installButler (s : ButlerFileState) (freshSize freshContent : Nat) : ButlerResult :=
  let s1 : ButlerFileState := { s with running := false }
  if s1.binExists && decide (0 < s1.binSize) then
    { killedBeforeCheck := true, downloaded := false, final := s1 }
  else
    { killedBeforeCheck := true, downloaded := true,
      final := { binExists := true, binSize := freshSize,
                 binContent := freshContent, running := false } }

/-! ### ExtractionService.extract_pwr and GameService.repair_game -/

/-- State of the install target directory. -/
structure InstallDirState where
  dirExists : Bool
  clientExists : Bool
  clientSize : Nat
  deriving Repr, DecidableEq

/-- Outcome of `extract_pwr`: raised, skipped (idempotent fast path), or
a full extraction. -/
inductive ExtractOutcome where
  | failed
  | skipped
  | extracted
  deriving Repr, DecidableEq

/-- `ExtractionService.extract_pwr` decision structure: validate the
patch file, then skip only when `skip_if_installed` and a sufficiently
large (at least 20MB) client is already present, otherwise run the
external tool (whose success is the `butlerOk` oracle). -/
def extractPwr (pwr : CacheFile) (dir : InstallDirState) (skipIfInstalled : Bool)
    (butlerOk : Bool) : ExtractOutcome :=
  if !validatePwrFile pwr then .failed
  else if skipIfInstalled && dir.clientExists && decide (20 * 1024 * 1024 ≤ dir.clientSize) then
    .skipped
  else if butlerOk then .extracted else .failed

/-- Observable trace of `GameService.repair_game`. -/
structure RepairTrace where
  dirRemovedBeforeApply : Bool
  skipFlagUsed : Bool
  dirStateAtApply : InstallDirState
  outcome : ExtractOutcome
  deriving Repr, DecidableEq

/-- `GameService.repair_game`: when the target directory exists it is
deleted whole (`shutil.rmtree`, lines 183–188) before the patch is
obtained and applied, and `_apply_patch` is invoked with
`skip_if_installed=False` (line 199). -/
def repairGame (dir : InstallDirState) (pwr : CacheFile) (butlerOk : Bool) : RepairTrace :=
  let dirAfter : InstallDirState :=
    if dir.dirExists then { dirExists := false, clientExists := false, clientSize := 0 }
    else dir
  { dirRemovedBeforeApply := dir.dirExists,
    skipFlagUsed := false,
    dirStateAtApply := dirAfter,
    outcome := extractPwr pwr dirAfter false butlerOk }

/-! ### SkinMonitorService: restore priority -/

/-- One entry of the `CachedPlayerSkins` category of
`skins_metadata.json`: the backed-up filename and its recorded
`last_user_uuid`. -/
structure SkinMetaEntry where
  filename : String
  lastUserUuid : Option String
  deriving Repr, DecidableEq

/-- The metadata document, restricted to what
`_find_best_skin_to_restore` reads: the `CachedPlayerSkins` mapping (in
dict iteration order) and the global `last_session_uuid`. -/
structure SkinsMetadata where
  playerSkins : List SkinMetaEntry
  lastSessionUuid : Option String
  deriving Repr, DecidableEq

/-- A file of the repository's `CachedPlayerSkins` directory. -/
structure RepoFile where
  name : String
  mtime : ℚ
  deriving Repr, DecidableEq

/-- Python truthiness of `metadata.get("last_session_uuid")`: absent or
empty is falsy. -/
def isTruthy : Option String → Bool
  | none => false
  | some s => !s.isEmpty

/-- Fallback 3 of `_find_best_skin_to_restore`: the most recently
modified file of the repository's `CachedPlayerSkins` directory, `none`
when the directory is absent or empty (`files.sort(reverse=True)` then
`files[0]`). -/
def fallbackNewest : Option (List RepoFile) → Option String
  | none => none
  | some files =>
    if files.isEmpty then none
    else ((List.insertionSort (fun a b => b.mtime ≤ a.mtime) files).head?).map
      (fun f => f.name)

/-- `SkinMonitorService._find_best_skin_to_restore`: (1) an entry whose
`last_user_uuid` is the target identity; (2) else, when a truthy
`last_session_uuid` is recorded, an entry whose `last_user_uuid` matches
it; (3) else the newest repository file. -/
def findBestSkinToRestore (meta : SkinsMetadata) (repoSkins : Option (List RepoFile))
    (targetUuid : String) : Option String :=
  match meta.playerSkins.find? (fun e => e.lastUserUuid == some targetUuid) with
  | some e => some e.filename
  | none =>
    let viaSession :=
      if isTruthy meta.lastSessionUuid then
        meta.playerSkins.find? (fun e => e.lastUserUuid == meta.lastSessionUuid)
      else none
    match viaSession with
    | some e => some e.filename
    | none => fallbackNewest repoSkins

/-- Result of `prepare_skin_for_launch`: the config mapping update and
the file chosen for restore (injected when present). -/
structure PrepareResult where
  configMappingUpdated : Bool
  restoredFile : Option String
  deriving Repr, DecidableEq

/-- `SkinMonitorService.prepare_skin_for_launch`: updates the identity
mapping config, then restores `_find_best_skin_to_restore`'s choice. -/
def prepareSkinForLaunch (meta : SkinsMetadata) (repoSkins : Option (List RepoFile))
    (playerUuid : String) : PrepareResult :=
  { configMappingUpdated := true,
    restoredFile := findBestSkinToRestore meta repoSkins playerUuid }

/-! ### SkinMonitorService: monitor state machine -/

/-- Monitor state: the `is_monitoring` flag, whether a thread object is
held in `monitor_thread`, the count of background threads ever started,
and the watched directory. -/
structure MonitorState where
  isMonitoring : Bool
  monitorThread : Bool
  threadsStarted : Nat
  gameUserDataDir : Option String
  deriving Repr, DecidableEq

/-- `SkinMonitorService.start_backup_monitor`: returns immediately when
already monitoring, otherwise records the directory, sets the flag and
starts one background thread. -/
def startBackupMonitor (s : MonitorState) (dir : String) : MonitorState :=
  if s.isMonitoring then s
  else
    { isMonitoring := true, monitorThread := true,
      threadsStarted := s.threadsStarted + 1, gameUserDataDir := some dir }

/-- `SkinMonitorService.stop_monitoring`: clears the flag and, when a
thread object exists, joins it with timeout 2.0 seconds (the returned
component is the join timeout used, `none` when no join happens). -/
def stopMonitoring (s : MonitorState) : MonitorState × Option ℚ :=
  ({ s with isMonitoring := false }, if s.monitorThread then some 2 else none)

/-! ### GameService.launch_game_with_fallback: argument construction -/

/-- The launch options consumed by the argument-construction step. -/
structure LaunchOptions where
  identityToken : String
  sessionToken : String
  authMode : Option String
  uuid : String
  playerName : String
  server : Option String
  deriving Repr, DecidableEq

/-- The offline condition of lines 476: tokens missing (falsy) or an
explicit `authMode == "offline"` request. -/
def offlineCond (o : LaunchOptions) : Bool :=
  o.identityToken.isEmpty || o.sessionToken.isEmpty || (o.authMode == some "offline")

/-- Lines 464–472: `--app-dir`, the optional `--java-exec`, the
optional `--connect` (both guarded by Python truthiness). -/
def baseGameArgs (gameDir javaPath : String) (o : LaunchOptions) : List String :=
  ["--app-dir", gameDir] ++
    (if javaPath.isEmpty then [] else ["--java-exec", javaPath]) ++
    (match o.server with
     | some s => if s.isEmpty then [] else ["--connect", s]
     | none => [])

/-- Lines 464–492: the full `game_args` list, ending in the offline or
authenticated argument block. -/
def buildGameArgs (gameDir javaPath userDataDir : String) (o : LaunchOptions) : List String :=
  baseGameArgs gameDir javaPath o ++
    (if offlineCond o then
      ["--auth-mode", "offline", "--uuid", o.uuid, "--name", o.playerName,
       "--user-dir", userDataDir]
    else
      ["--auth-mode", "authenticated", "--uuid", o.uuid, "--name", o.playerName,
       "--identity-token", o.identityToken, "--session-token", o.sessionToken,
       "--user-dir", userDataDir])

/-- The sort relation used for newest-first ordering is total. -/
instance : IsTotal RepoFile (fun a b => b.mtime ≤ a.mtime) :=
  ⟨fun a b => le_total b.mtime a.mtime⟩

/-- The sort relation used for newest-first ordering is transitive. -/
instance : IsTrans RepoFile (fun a b => b.mtime ≤ a.mtime) :=
  ⟨fun _ _ _ h1 h2 => le_trans h2 h1⟩

/-! ## Theorems -/

/-- Claim C9: during install's download step, a progress callback
reporting percent `p` (`0 ≤ p ≤ 100`) overwrites the shared progress
record with `⌊10 + 0.5 * p⌋` percent and status `"installing"`; in
particular `p = 50` maps to 35% overall. -/
theorem downloadProgress_maps_to_band (p : ℚ) (hp0 : 0 ≤ p) (_hp1 : p ≤ 100) (d t : Nat) :
    (downloadPatchOnProgress d t p).percent = ⌊(10 : ℚ) + p * (1 / 2)⌋ ∧
    (downloadPatchOnProgress d t p).status = "installing" ∧
    (downloadPatchOnProgress d t 50).percent = 35 := by
  refine ⟨?_, rfl, ?_⟩
  · simp only [downloadPatchOnProgress, setProgressState, pyInt]
    rw [if_pos (by linarith)]
  · simp only [downloadPatchOnProgress, setProgressState, pyInt]
    norm_num

/-- Witness for C9 at `p = 50`. -/
theorem downloadProgress_maps_to_band_witness :
    (0 : ℚ) ≤ 50 ∧ (50 : ℚ) ≤ 100 ∧ (downloadPatchOnProgress 0 0 50).percent = 35 :=
  ⟨by norm_num, by norm_num,
    (downloadProgress_maps_to_band 50 (by norm_num) (by norm_num) 0 0).2.2⟩

/-- Claim C10: when `download_file` is called with `max_retries ≤ 0`,
the attempt loop body never runs: no download attempt is made, no
backoff sleep happens, and the generic fallback error
`"Download failed after maximum retries"` is raised rather than any
transport error. -/
theorem download_no_attempts_when_nonpositive (mr : Int) (h : mr ≤ 0)
    (f : Nat → Except String Nat) :
    downloadFile f mr =
      { attemptsMade := 0, sleeps := [], result := Except.error maxRetriesMsg } := by
  rw [downloadFile, downloadFileAux, dif_neg (by omega)]
  rfl

/-- Witness for C10 at `max_retries = 0`. -/
theorem download_no_attempts_when_nonpositive_witness :
    (0 : Int) ≤ 0 ∧
    downloadFile (fun _ => Except.error "connection reset by peer") 0 =
      { attemptsMade := 0, sleeps := [], result := Except.error maxRetriesMsg } :=
  ⟨le_refl 0,
    download_no_attempts_when_nonpositive 0 (le_refl 0)
      (fun _ => Except.error "connection reset by peer")⟩

/-- Claim C8: starting the skin backup monitor while it is already
monitoring is a no-op (no second background thread, state unchanged);
stopping clears the monitoring flag and joins the background thread
with a 2-second timeout, after which a start succeeds and creates
exactly one new background thread. -/
theorem monitor_idempotent_start_stop (s : MonitorState) (d d2 : String) :
    (s.isMonitoring = true → startBackupMonitor s d = s) ∧
    (stopMonitoring s).1.isMonitoring = false ∧
    (s.monitorThread = true → (stopMonitoring s).2 = some 2) ∧
    (startBackupMonitor (stopMonitoring s).1 d2).isMonitoring = true ∧
    (startBackupMonitor (stopMonitoring s).1 d2).threadsStarted = s.threadsStarted + 1 := by
  refine ⟨fun h => ?_, rfl, fun h => ?_, ?_, ?_⟩
  · simp [startBackupMonitor, h]
  · simp [stopMonitoring, h]
  · simp [startBackupMonitor, stopMonitoring]
  · simp [startBackupMonitor, stopMonitoring]

/-- Witness for C8 on a concrete monitoring state. -/
theorem monitor_idempotent_start_stop_witness :
    startBackupMonitor ⟨true, true, 1, none⟩ "d" = ⟨true, true, 1, none⟩ ∧
    (stopMonitoring ⟨true, true, 1, none⟩).2 = some 2 ∧
    (startBackupMonitor (stopMonitoring ⟨true, true, 1, none⟩).1 "e").threadsStarted = 2 := by
  have h := monitor_idempotent_start_stop ⟨true, true, 1, none⟩ "d" "e"
  exact ⟨h.1 rfl, h.2.2.1 rfl, h.2.2.2.2⟩

/-- Claim C2 (counterexample to the original claim): with a non-empty
binary present and a tool instance running, `install_butler` takes the
idempotent fast path (no download, binary unchanged) and STILL kills the
running instance, because `_kill_existing_butler` runs unconditionally
before the existence check. -/
theorem butler_fast_path_kills_counterexample :
    installButler ⟨true, 1, 7, true⟩ 0 0 =
      { killedBeforeCheck := true, downloaded := false,
        final := ⟨true, 1, 7, false⟩ } := by
  rfl

/-- Claim C2 (amended): when a non-empty tool binary exists at the
expected path, `install_butler` returns with no download and the binary
unchanged; however, any running tool instance is terminated
unconditionally before the existence check, so the fast path does kill
running tool processes. -/
theorem butler_fast_path_no_download (s : ButlerFileState) (fs fc : Nat)
    (h1 : s.binExists = true) (h2 : 0 < s.binSize) :
    (installButler s fs fc).downloaded = false ∧
    (installButler s fs fc).final.binExists = s.binExists ∧
    (installButler s fs fc).final.binSize = s.binSize ∧
    (installButler s fs fc).final.binContent = s.binContent ∧
    (installButler s fs fc).killedBeforeCheck = true ∧
    (installButler s fs fc).final.running = false := by
  simp [installButler, h1, h2]

/-- Witness for C2's amended theorem. -/
theorem butler_fast_path_no_download_witness :
    (installButler ⟨true, 5, 3, true⟩ 9 9).downloaded = false ∧
    (installButler ⟨true, 5, 3, true⟩ 9 9).killedBeforeCheck = true ∧
    (installButler ⟨true, 5, 3, true⟩ 9 9).final.running = false := by
  have h := butler_fast_path_no_download ⟨true, 5, 3, true⟩ 9 9 rfl (by norm_num)
  exact ⟨h.1, h.2.2.2.2.1, h.2.2.2.2.2⟩

/-- Claim C5: `repair_game` deletes the whole target directory (when it
exists) before downloading and applying, and applies the patch with
`skip_if_installed=False`, so the extraction runs even when a valid
install was present beforehand. -/
theorem repair_forces_full_reapply (dir : InstallDirState) (pwr : CacheFile) (butlerOk : Bool)
    (hpwr : validatePwrFile pwr = true) (hb : butlerOk = true) :
    (repairGame dir pwr butlerOk).skipFlagUsed = false ∧
    (dir.dirExists = true →
      (repairGame dir pwr butlerOk).dirRemovedBeforeApply = true ∧
      (repairGame dir pwr butlerOk).dirStateAtApply.dirExists = false ∧
      (repairGame dir pwr butlerOk).dirStateAtApply.clientExists = false) ∧
    (repairGame dir pwr butlerOk).outcome = ExtractOutcome.extracted := by
  subst hb
  refine ⟨rfl, fun h => ?_, ?_⟩
  · simp [repairGame, h]
  · simp [repairGame, extractPwr, hpwr]

/-- Witness for C5: a valid install (client present and large enough)
is deleted and re-extracted. -/
theorem repair_forces_full_reapply_witness :
    validatePwrFile ⟨"temp_1.pwr", true, 10485760, true, 0⟩ = true ∧
    (repairGame ⟨true, true, 31457280⟩ ⟨"temp_1.pwr", true, 10485760, true, 0⟩ true).outcome =
      ExtractOutcome.extracted ∧
    (repairGame ⟨true, true, 31457280⟩ ⟨"temp_1.pwr", true, 10485760, true, 0⟩
        true).dirRemovedBeforeApply = true := by
  have h := repair_forces_full_reapply ⟨true, true, 31457280⟩
    ⟨"temp_1.pwr", true, 10485760, true, 0⟩ true (by decide) rfl
  exact ⟨by decide, h.2.2, (h.2.1 rfl).1⟩

/-- The chunk loop distributes over trace concatenation. -/
theorem runChunks_append (l₁ l₂ : List ChunkEvent) (st : ℚ × Nat) :
    runChunks st (l₁ ++ l₂) =
      match runChunks st l₁ with
      | .error e => .error e
      | .ok st' => runChunks st' l₂ := by
  induction l₁ generalizing st with
  | nil => rfl
  | cons ev rest ih =>
    simp only [List.cons_append, runChunks]
    rcases h : chunkStep st ev with e | st'
    · rfl
    · exact ih st'

/-- Claim C4: during a transfer, an iteration at which no data has
arrived for more than the 30-second stall window fails the attempt with
the stall error, and that stall error is classified as retryable by the
retry logic. -/
theorem stall_fails_and_is_retryable (st st' : ℚ × Nat) (pre rest : List ChunkEvent)
    (ev : ChunkEvent) (hpre : runChunks st pre = .ok st')
    (hnodata : ev.bytes = 0) (hgap : ev.time - st'.1 > 30) :
    runChunks st (pre ++ ev :: rest) = .error stallMsg ∧ isRetryable stallMsg = true := by
  refine ⟨?_, by decide⟩
  rw [runChunks_append, hpre]
  simp only [runChunks, chunkStep, hnodata]
  rw [if_pos (by simpa using hgap)]

/-- Witness for C4: one data chunk at t=1, then a dataless iteration at
t=40 (39 seconds without data). -/
theorem stall_fails_and_is_retryable_witness :
    runChunks ((0 : ℚ), 0) [⟨1, 5⟩, ⟨40, 0⟩] = .error stallMsg ∧
    isRetryable stallMsg = true := by
  have h := stall_fails_and_is_retryable ((0 : ℚ), 0) ((1 : ℚ), 5) [⟨1, 5⟩] [] ⟨40, 0⟩
    (by simp [runChunks, chunkStep]; norm_num) rfl (by norm_num)
  exact h

/-- Loop invariant for the all-transient case: from any reached loop
state with attempts still remaining, the loop performs all remaining
attempts, sleeping `2 * k` after each non-final attempt `k`, and ends
raising the final attempt's error. -/
theorem downloadFileAux_all_retryable (f : Nat → Except String Nat) (n : Nat) :
    ∀ m a lastErr sleeps, n - a = m → a < n →
      (∀ k, a < k → k ≤ n → ∃ e, f k = Except.error e ∧ isRetryable e = true) →
      ∃ e, f n = Except.error e ∧
        downloadFileAux f (n : Int) a lastErr sleeps =
          { attemptsMade := n,
            sleeps := sleeps ++ (List.range' (a + 1) (n - 1 - a)).map (fun k => 2 * k),
            result := Except.error e } := by
  intro m
  induction m with
  | zero => intro a lastErr sleeps hm ha _; omega
  | succ m ih =>
    intro a lastErr sleeps hm ha hall
    obtain ⟨e1, he1, hr1⟩ := hall (a + 1) (by omega) (by omega)
    rw [downloadFileAux, dif_pos (by exact_mod_cast ha)]
    simp only [he1, hr1, Bool.not_true, Bool.false_or]
    by_cases hend : a + 1 = n
    · rw [if_pos (by simp [hend])]
      refine ⟨e1, by rw [← hend]; exact he1, ?_⟩
      have h0 : n - 1 - a = 0 := by omega
      simp [h0, hend]
    · rw [if_neg (by simp; omega)]
      obtain ⟨e, he, heq⟩ := ih (a + 1) (some e1) (sleeps ++ [2 * (a + 1)]) (by omega)
        (by omega) (fun k hk1 hk2 => hall k (by omega) hk2)
      refine ⟨e, he, ?_⟩
      rw [heq]
      have hc : n - 1 - a = (n - 1 - (a + 1)) + 1 := by omega
      rw [hc, List.range'_succ, List.map_cons, ← List.append_cons]

/-- Loop invariant for the non-transient stop: from any reached loop
state, if the attempts up to `k` fail transiently and attempt `k` fails
with a non-retryable error, the loop stops at attempt `k` and raises
that error with no further sleep. -/
theorem downloadFileAux_stops_nonretryable (f : Nat → Except String Nat) (n : Nat) :
    ∀ m a lastErr sleeps k e, k - (a + 1) = m → a < k → k ≤ n →
      (∀ j, a < j → j < k → ∃ e2, f j = Except.error e2 ∧ isRetryable e2 = true) →
      f k = Except.error e → isRetryable e = false →
      downloadFileAux f (n : Int) a lastErr sleeps =
        { attemptsMade := k,
          sleeps := sleeps ++ (List.range' (a + 1) (k - 1 - a)).map (fun j => 2 * j),
          result := Except.error e } := by
  intro m
  induction m with
  | zero =>
    intro a lastErr sleeps k e hm ha hk hprev hke hnr
    have hk1 : k = a + 1 := by omega
    subst hk1
    rw [downloadFileAux, dif_pos (by exact_mod_cast by omega : (a : Int) < n)]
    simp only [hke, hnr, Bool.not_false, Bool.true_or]
    rw [if_pos trivial]
    have h0 : a + 1 - 1 - a = 0 := by omega
    simp [h0]
  | succ m ih =>
    intro a lastErr sleeps k e hm ha hk hprev hke hnr
    obtain ⟨e1, he1, hr1⟩ := hprev (a + 1) (by omega) (by omega)
    rw [downloadFileAux, dif_pos (by exact_mod_cast by omega : (a : Int) < n)]
    simp only [he1, hr1, Bool.not_true, Bool.false_or]
    rw [if_neg (by simp; omega)]
    have heq := ih (a + 1) (some e1) (sleeps ++ [2 * (a + 1)]) k e (by omega) (by omega) hk
      (fun j hj1 hj2 => hprev j (by omega) hj2) hke hnr
    rw [heq]
    have hc : k - 1 - a = (k - 1 - (a + 1)) + 1 := by omega
    rw [hc, List.range'_succ, List.map_cons, ← List.append_cons]

/-- Claim C3: for every `maxRetries ≥ 1`, if every attempt raises a
transient (retryable) error then `download_file` performs exactly
`maxRetries` attempts, sleeping the linear backoff `2 * k` seconds after
each non-final attempt `k`, and raises the last attempt's error; and if
the attempts before `k` are transient but attempt `k` raises a
non-transient error, the loop stops at attempt `k` and raises that
error immediately. -/
theorem download_retry_policy (n : Nat) (hn : 1 ≤ n) (f : Nat → Except String Nat) :
    ((∀ k, 1 ≤ k → k ≤ n → ∃ e, f k = Except.error e ∧ isRetryable e = true) →
      ∃ e, f n = Except.error e ∧
        downloadFile f (n : Int) =
          { attemptsMade := n,
            sleeps := (List.range' 1 (n - 1)).map (fun k => 2 * k),
            result := Except.error e }) ∧
    (∀ k e, 1 ≤ k → k ≤ n →
      (∀ j, 1 ≤ j → j < k → ∃ e2, f j = Except.error e2 ∧ isRetryable e2 = true) →
      f k = Except.error e → isRetryable e = false →
      downloadFile f (n : Int) =
        { attemptsMade := k,
          sleeps := (List.range' 1 (k - 1)).map (fun j => 2 * j),
          result := Except.error e }) := by
  constructor
  · intro hall
    obtain ⟨e, he, heq⟩ := downloadFileAux_all_retryable f n n 0 none [] rfl (by omega)
      (fun k hk1 hk2 => hall k (by omega) hk2)
    exact ⟨e, he, by simpa using heq⟩
  · intro k e hk1 hkn hprev hke hnr
    have heq := downloadFileAux_stops_nonretryable f n (k - 1) 0 none [] k e (by omega)
      (by omega) hkn (fun j hj1 hj2 => hprev j (by omega) hj2) hke hnr
    simpa using heq

/-- Witness for C3: two attempts that always raise a connection-reset
error are both performed, with one 2-second sleep between them, and the
error is re-raised. -/
theorem download_retry_policy_witness :
    downloadFile (fun _ => Except.error "connection reset by peer") (2 : Int) =
      { attemptsMade := 2, sleeps := [2],
        result := Except.error "connection reset by peer" } := by
  obtain ⟨e, he, heq⟩ :=
    (download_retry_policy 2 (by norm_num) (fun _ => Except.error "connection reset by peer")).1
      (fun k _ _ => ⟨"connection reset by peer", rfl, by decide⟩)
  have he2 : e = "connection reset by peer" := by
    have := he.symm
    injection this
  subst he2
  simpa using heq

/-- The elements that can occur in the argument list before the auth
block: the two literal flags plus the payload values. -/
theorem mem_baseGameArgs (g j : String) (o : LaunchOptions) (x : String)
    (hx : x ∈ baseGameArgs g j o) :
    x = "--app-dir" ∨ x = g ∨ x = "--java-exec" ∨ x = j ∨ x = "--connect" ∨
      ∃ s, o.server = some s ∧ x = s := by
  unfold baseGameArgs at hx
  rcases hsv : o.server with _ | sv <;> rw [hsv] at hx <;>
    by_cases hj : j.isEmpty <;> simp [hj] at hx
  · tauto
  · tauto
  all_goals
    by_cases hs : sv.isEmpty <;> simp [hs] at hx <;>
      rcases hx with hx | hx | hx | hx | hx <;> tauto

/-- Claim C7: the spawned command line carries
`--auth-mode authenticated` exactly when both tokens are non-empty and
offline mode was not explicitly requested; in every other case it
carries `--auth-mode offline`, and then no token arguments are
included.  (The payload values are assumed not to collide with the two
token flag strings.) -/
theorem launch_auth_mode_spec (g j u : String) (o : LaunchOptions)
    (hclean : ∀ s ∈ g :: j :: o.uuid :: o.playerName :: u :: o.server.toList,
        s ≠ "--identity-token" ∧ s ≠ "--session-token") :
    (offlineCond o = false ↔
      o.identityToken ≠ "" ∧ o.sessionToken ≠ "" ∧ o.authMode ≠ some "offline") ∧
    (offlineCond o = false →
      buildGameArgs g j u o =
        baseGameArgs g j o ++
          ["--auth-mode", "authenticated", "--uuid", o.uuid, "--name", o.playerName,
           "--identity-token", o.identityToken, "--session-token", o.sessionToken,
           "--user-dir", u]) ∧
    (offlineCond o = true →
      buildGameArgs g j u o =
        baseGameArgs g j o ++
          ["--auth-mode", "offline", "--uuid", o.uuid, "--name", o.playerName,
           "--user-dir", u] ∧
      "--identity-token" ∉ buildGameArgs g j u o ∧
      "--session-token" ∉ buildGameArgs g j u o) := by
  have hoff : offlineCond o = false ↔
      o.identityToken ≠ "" ∧ o.sessionToken ≠ "" ∧ o.authMode ≠ some "offline" := by
    unfold offlineCond
    simp [String.isEmpty_iff, Bool.eq_false_iff, and_assoc]
  refine ⟨hoff, fun h => by simp [buildGameArgs, h], fun h => ?_⟩
  have hargs : buildGameArgs g j u o =
      baseGameArgs g j o ++
        ["--auth-mode", "offline", "--uuid", o.uuid, "--name", o.playerName,
         "--user-dir", u] := by
    simp [buildGameArgs, h]
  refine ⟨hargs, ?_, ?_⟩
  · intro hmem
    rw [hargs] at hmem
    rcases List.mem_append.mp hmem with hb | ht
    · rcases mem_baseGameArgs g j o _ hb with h1 | h1 | h1 | h1 | h1 | ⟨s, hs, h1⟩
      · exact absurd h1 (by decide)
      · exact (hclean g (by simp)).1 h1.symm
      · exact absurd h1 (by decide)
      · exact (hclean j (by simp)).1 h1.symm
      · exact absurd h1 (by decide)
      · exact (hclean s (by simp [hs])).1 h1.symm
    · simp only [List.mem_cons, List.not_mem_nil, or_false] at ht
      rcases ht with h1 | h1 | h1 | h1 | h1 | h1 | h1 | h1
      · exact absurd h1 (by decide)
      · exact absurd h1 (by decide)
      · exact absurd h1 (by decide)
      · exact (hclean o.uuid (by simp)).1 h1.symm
      · exact absurd h1 (by decide)
      · exact (hclean o.playerName (by simp)).1 h1.symm
      · exact absurd h1 (by decide)
      · exact (hclean u (by simp)).1 h1.symm
  · intro hmem
    rw [hargs] at hmem
    rcases List.mem_append.mp hmem with hb | ht
    · rcases mem_baseGameArgs g j o _ hb with h1 | h1 | h1 | h1 | h1 | ⟨s, hs, h1⟩
      · exact absurd h1 (by decide)
      · exact (hclean g (by simp)).2 h1.symm
      · exact absurd h1 (by decide)
      · exact (hclean j (by simp)).2 h1.symm
      · exact absurd h1 (by decide)
      · exact (hclean s (by simp [hs])).2 h1.symm
    · simp only [List.mem_cons, List.not_mem_nil, or_false] at ht
      rcases ht with h1 | h1 | h1 | h1 | h1 | h1 | h1 | h1
      · exact absurd h1 (by decide)
      · exact absurd h1 (by decide)
      · exact absurd h1 (by decide)
      · exact (hclean o.uuid (by simp)).2 h1.symm
      · exact absurd h1 (by decide)
      · exact (hclean o.playerName (by simp)).2 h1.symm
      · exact absurd h1 (by decide)
      · exact (hclean u (by simp)).2 h1.symm

/-- Witness for C7: empty tokens force offline mode with no token
arguments; non-empty tokens without an offline request force
authenticated mode. -/
theorem launch_auth_mode_spec_witness :
    offlineCond ⟨"", "", none, "u1", "Player", none⟩ = true ∧
    buildGameArgs "gd" "jp" "ud" ⟨"", "", none, "u1", "Player", none⟩ =
      ["--app-dir", "gd", "--java-exec", "jp", "--auth-mode", "offline", "--uuid", "u1",
       "--name", "Player", "--user-dir", "ud"] ∧
    "--identity-token" ∉ buildGameArgs "gd" "jp" "ud" ⟨"", "", none, "u1", "Player", none⟩ ∧
    offlineCond ⟨"it", "st", none, "u1", "Player", none⟩ = false := by
  have h := launch_auth_mode_spec "gd" "jp" "ud" ⟨"", "", none, "u1", "Player", none⟩
    (by intro s hs; fin_cases hs <;> exact ⟨by decide, by decide⟩)
  obtain ⟨heq, hmem, _⟩ := h.2.2 rfl
  refine ⟨rfl, ?_, hmem, rfl⟩
  rw [heq]
  rfl

/-- The mtime fallback returns a file of the directory whose
modification time is maximal. -/
theorem fallbackNewest_spec (files : List RepoFile) (hne : files ≠ []) :
    ∃ f ∈ files, fallbackNewest (some files) = some f.name ∧
      ∀ g ∈ files, g.mtime ≤ f.mtime := by
  have hsorted := List.sorted_insertionSort (fun a b => b.mtime ≤ a.mtime) files
  have hperm := List.perm_insertionSort (fun a b => b.mtime ≤ a.mtime) files
  rcases hsn : List.insertionSort (fun a b => b.mtime ≤ a.mtime) files with _ | ⟨f, rest⟩
  · exfalso
    have hlen := hperm.length_eq
    rw [hsn] at hlen
    exact hne (List.eq_nil_of_length_eq_zero hlen.symm)
  · refine ⟨f, ?_, ?_, ?_⟩
    · have hf : f ∈ List.insertionSort (fun a b => b.mtime ≤ a.mtime) files := by
        rw [hsn]; exact List.mem_cons_self f rest
      exact hperm.mem_iff.mp hf
    · simp [fallbackNewest, hne, hsn]
    · intro g hg
      have hg2 : g ∈ f :: rest := by
        rw [← hsn]
        exact hperm.mem_iff.mpr hg
      rw [hsn] at hsorted
      rcases List.mem_cons.mp hg2 with hgf | hgr
      · exact le_of_eq (by rw [hgf])
      · exact List.rel_of_sorted_cons hsorted g hgr

/-- Claim C6: `prepare_skin_for_launch` picks the file to restore by
priority: (a) an entry of the player-skins category recording the
target identity as last user; (b) else an entry recording the (truthy)
last-session identity; (c) else the most recently modified file of the
repository's player-skins directory, and none when that directory is
absent or empty.  Because (a) ignores modification times, an
identity-matched file wins over any newer unrelated file. -/
theorem skin_restore_priority (meta : SkinsMetadata) (repo : Option (List RepoFile))
    (u : String) :
    ((∃ e ∈ meta.playerSkins, e.lastUserUuid = some u) →
      ∃ e ∈ meta.playerSkins, e.lastUserUuid = some u ∧
        (prepareSkinForLaunch meta repo u).restoredFile = some e.filename) ∧
    ((∀ e ∈ meta.playerSkins, e.lastUserUuid ≠ some u) →
      ∀ s, meta.lastSessionUuid = some s → s ≠ "" →
      (∃ e ∈ meta.playerSkins, e.lastUserUuid = some s) →
      ∃ e ∈ meta.playerSkins, e.lastUserUuid = some s ∧
        (prepareSkinForLaunch meta repo u).restoredFile = some e.filename) ∧
    ((∀ e ∈ meta.playerSkins, e.lastUserUuid ≠ some u) →
      (isTruthy meta.lastSessionUuid = false ∨
        ∀ e ∈ meta.playerSkins, e.lastUserUuid ≠ meta.lastSessionUuid) →
      (repo = none → (prepareSkinForLaunch meta repo u).restoredFile = none) ∧
      (repo = some [] → (prepareSkinForLaunch meta repo u).restoredFile = none) ∧
      (∀ files, repo = some files → files ≠ [] →
        ∃ f ∈ files, (prepareSkinForLaunch meta repo u).restoredFile = some f.name ∧
          ∀ g ∈ files, g.mtime ≤ f.mtime)) := by
  refine ⟨?_, ?_, ?_⟩
  · rintro ⟨e0, he0, hu0⟩
    have hsome : (meta.playerSkins.find? (fun e => e.lastUserUuid == some u)).isSome := by
      rw [List.find?_isSome]
      exact ⟨e0, he0, by simp [hu0]⟩
    obtain ⟨e, hfind⟩ := Option.isSome_iff_exists.mp hsome
    refine ⟨e, List.mem_of_find?_eq_some hfind, ?_, ?_⟩
    · have := List.find?_some hfind
      simpa using this
    · simp only [prepareSkinForLaunch, findBestSkinToRestore, hfind]
  · intro hnone s hs hsne ⟨e0, he0, hs0⟩
    have hfind1 : meta.playerSkins.find? (fun e => e.lastUserUuid == some u) = none := by
      rw [List.find?_eq_none]
      intro e he
      simpa using hnone e he
    have htruthy : isTruthy meta.lastSessionUuid = true := by
      simp [isTruthy, hs, Bool.eq_false_iff, String.isEmpty_iff, hsne]
    have hsome : (meta.playerSkins.find? (fun e => e.lastUserUuid == meta.lastSessionUuid)).isSome := by
      rw [List.find?_isSome]
      exact ⟨e0, he0, by simp [hs0, hs]⟩
    obtain ⟨e, hfind2⟩ := Option.isSome_iff_exists.mp hsome
    refine ⟨e, List.mem_of_find?_eq_some hfind2, ?_, ?_⟩
    · have := List.find?_some hfind2
      rw [hs] at this
      simpa using this
    · simp only [prepareSkinForLaunch, findBestSkinToRestore, hfind1, htruthy, if_true, hfind2]
  · intro hnone hsess
    have hfind1 : meta.playerSkins.find? (fun e => e.lastUserUuid == some u) = none := by
      rw [List.find?_eq_none]
      intro e he
      simpa using hnone e he
    have hvia : (if isTruthy meta.lastSessionUuid then
        meta.playerSkins.find? (fun e => e.lastUserUuid == meta.lastSessionUuid)
      else none) = none := by
      rcases hsess with hf | hne2
      · rw [hf]
        simp
      · by_cases ht : isTruthy meta.lastSessionUuid
        · rw [if_pos ht, List.find?_eq_none]
          intro e he
          simpa using hne2 e he
        · simp [ht]
    have hfb : (prepareSkinForLaunch meta repo u).restoredFile = fallbackNewest repo := by
      simp only [prepareSkinForLaunch, findBestSkinToRestore, hfind1, hvia]
    refine ⟨fun hr => by rw [hfb, hr]; rfl, fun hr => by rw [hfb, hr]; rfl, ?_⟩
    intro files hr hne
    obtain ⟨f, hf, heq, hmax⟩ := fallbackNewest_spec files hne
    exact ⟨f, hf, by rw [hfb, hr, heq], hmax⟩

/-- Witness for C6: identity `u1`'s recorded skin `a.png` is restored
even though the unrelated repository file `c.png` is newer. -/
theorem skin_restore_priority_witness :
    (prepareSkinForLaunch
        ⟨[⟨"a.png", some "u1"⟩, ⟨"b.png", some "u2"⟩], none⟩
        (some [⟨"c.png", 100⟩, ⟨"a.png", 1⟩]) "u1").restoredFile = some "a.png" := by
  obtain ⟨e, he, hu, hr⟩ :=
    (skin_restore_priority ⟨[⟨"a.png", some "u1"⟩, ⟨"b.png", some "u2"⟩], none⟩
        (some [⟨"c.png", 100⟩, ⟨"a.png", 1⟩]) "u1").1
      ⟨⟨"a.png", some "u1"⟩, by simp, rfl⟩
  rcases List.mem_cons.mp he with h1 | h1
  · rw [hr, h1]
  · exfalso
    simp only [List.mem_cons, List.not_mem_nil, or_false] at h1
    rw [h1] at hu
    simp at hu

/-- A character list starts with any of its initial segments. -/
theorem charsStartWith_append_self (p rest : List Char) :
    charsStartWith (p ++ rest) p = true := by
  induction p with
  | nil => cases rest <;> rfl
  | cons c cs ih => simp [charsStartWith, ih]

/-- Appending a suffix makes `strEndsWith` hold for that suffix. -/
theorem strEndsWith_append (s t : String) : strEndsWith (s ++ t) t = true := by
  unfold strEndsWith
  have h : (s ++ t).toList = s.toList ++ t.toList := by
    simp [String.toList, String.data_append]
  rw [h, List.reverse_append]
  exact charsStartWith_append_self _ _

/-- The version-derived cache key always carries the `.pwr` suffix. -/
theorem destFileName_endsWith_pwr (lu : String) :
    strEndsWith (destFileName lu) ".pwr" = true := by
  have h : destFileName lu = ("temp_" ++ lu) ++ ".pwr" := by
    unfold destFileName
    rw [String.append_assoc]
  rw [h]
  exact strEndsWith_append _ _

/-- A file chosen by the candidate scan is a scanned candidate and
passes validation. -/
theorem scanForValid_fst_some (l : List CacheFile) (f : CacheFile)
    (h : (scanForValid l).1 = some f) : f ∈ l ∧ validatePwrFile f = true := by
  induction l with
  | nil => simp [scanForValid] at h
  | cons g rest ih =>
    by_cases hg : validatePwrFile g = true
    · simp only [scanForValid, hg, if_true] at h
      obtain rfl : g = f := by simpa using h
      exact ⟨List.mem_cons_self g rest, hg⟩
    · simp only [scanForValid, hg, if_false] at h
      obtain ⟨h1, h2⟩ := ih h
      exact ⟨List.mem_cons_of_mem g h1, h2⟩

/-- When every candidate fails validation, the scan chooses nothing and
removes every candidate. -/
theorem scanForValid_all_invalid (l : List CacheFile)
    (h : ∀ f ∈ l, validatePwrFile f = false) :
    scanForValid l = (none, l.map (fun f => f.name)) := by
  induction l with
  | nil => rfl
  | cons g rest ih =>
    have hg := h g (List.mem_cons_self g rest)
    simp only [scanForValid, hg, if_false, List.map_cons]
    rw [ih (fun f hf => h f (List.mem_cons_of_mem g hf))]
    simp

/-- The candidate list of `_download_patch` holds exactly the cached
`.pwr` files. -/
theorem mem_pwrCandidates (cache : List CacheFile) (destName : String) (f : CacheFile) :
    f ∈ pwrCandidates cache destName ↔
      f ∈ cache ∧ strEndsWith f.name ".pwr" = true := by
  simp only [pwrCandidates]
  split
  · constructor
    · intro hf
      rcases List.mem_append.mp hf with hf | hf
      · exact List.mem_filter.mp (List.mem_filter.mp hf).1
      · exact List.mem_filter.mp (List.mem_filter.mp hf).1
    · rintro ⟨hc, hp⟩
      have hpw : f ∈ cache.filter (fun g => strEndsWith g.name ".pwr") :=
        List.mem_filter.mpr ⟨hc, hp⟩
      by_cases hd : (f.name == destName) = true
      · exact List.mem_append.mpr (Or.inl (List.mem_filter.mpr ⟨hpw, hd⟩))
      · refine List.mem_append.mpr (Or.inr (List.mem_filter.mpr ⟨hpw, ?_⟩))
        rw [bne_iff_ne]
        intro hEq
        exact hd (by rw [hEq]; exact beq_self_eq_true _)
  · rw [(List.perm_insertionSort _ _).mem_iff, List.mem_filter]

/-- Claim C1 (counterexample to the original claim): with the current
target key `temp_222.pwr` and the cache holding only the valid artifact
`temp_111.pwr` of a different key, `_download_patch` reuses that other
artifact and downloads nothing. -/
theorem patch_cache_reuses_other_key_counterexample :
    (downloadPatch [⟨"temp_111.pwr", true, 10485760, true, 0⟩] "222").downloaded = false ∧
    (downloadPatch [⟨"temp_111.pwr", true, 10485760, true, 0⟩] "222").returnedPath =
      "temp_111.pwr" ∧
    validatePwrFile ⟨"temp_111.pwr", true, 10485760, true, 0⟩ = true ∧
    destFileName "222" = "temp_222.pwr" ∧
    ("temp_111.pwr" : String) ≠ "temp_222.pwr" := by
  refine ⟨?_, ?_, by decide, rfl, by decide⟩ <;> decide

/-- Claim C1 (amended): a cached artifact is reused only when it passes
the minimum-size/readability validation, with the current-key artifact
preferred, but a valid artifact under a DIFFERENT key is also reused
(newest first); when no cached artifact is valid, the artifact is
downloaded and every other cached `.pwr` artifact is removed during the
scan or purged after the download completes. -/
theorem patch_cache_reuse_policy (cache : List CacheFile) (lastUpdated : String)
    (hnd : (cache.map (fun f => f.name)).Nodup) :
    ((downloadPatch cache lastUpdated).downloaded = false →
      ∃ f ∈ cache, f.name = (downloadPatch cache lastUpdated).returnedPath ∧
        strEndsWith f.name ".pwr" = true ∧ validatePwrFile f = true) ∧
    (∀ f ∈ cache, f.name = destFileName lastUpdated → validatePwrFile f = true →
      (downloadPatch cache lastUpdated).downloaded = false ∧
      (downloadPatch cache lastUpdated).returnedPath = destFileName lastUpdated) ∧
    ((∀ f ∈ cache, strEndsWith f.name ".pwr" = true → validatePwrFile f = false) →
      (downloadPatch cache lastUpdated).downloaded = true ∧
      (downloadPatch cache lastUpdated).returnedPath = destFileName lastUpdated ∧
      ∀ f ∈ cache, strEndsWith f.name ".pwr" = true → f.name ≠ destFileName lastUpdated →
        f.name ∈ (downloadPatch cache lastUpdated).removedInvalid ∨
        f.name ∈ (downloadPatch cache lastUpdated).purged) := by
  refine ⟨?_, ?_, ?_⟩
  · intro hdl
    rcases hscan : scanForValid (pwrCandidates cache (destFileName lastUpdated))
      with ⟨ofst, rem⟩
    rcases ofst with _ | f
    · exfalso
      simp only [downloadPatch, hscan] at hdl
      exact absurd hdl (by decide)
    · have hf1 : (scanForValid (pwrCandidates cache (destFileName lastUpdated))).1 = some f := by
        rw [hscan]
      obtain ⟨hmem, hval⟩ := scanForValid_fst_some _ _ hf1
      obtain ⟨hc, hp⟩ := (mem_pwrCandidates _ _ _).mp hmem
      refine ⟨f, hc, ?_, hp, hval⟩
      simp only [downloadPatch, hscan]
  · intro f hf hname hval
    have hpwrf : f ∈ cache.filter (fun g => strEndsWith g.name ".pwr") :=
      List.mem_filter.mpr ⟨hf, by rw [hname]; exact destFileName_endsWith_pwr _⟩
    have hany : (cache.filter (fun g => strEndsWith g.name ".pwr")).any
        (fun g => g.name == destFileName lastUpdated) = true :=
      List.any_eq_true.mpr ⟨f, hpwrf, by rw [hname]; exact beq_self_eq_true _⟩
    have hmemEq : f ∈ (cache.filter (fun g => strEndsWith g.name ".pwr")).filter
        (fun g => g.name == destFileName lastUpdated) :=
      List.mem_filter.mpr ⟨hpwrf, by rw [hname]; exact beq_self_eq_true _⟩
    rcases hfe : (cache.filter (fun g => strEndsWith g.name ".pwr")).filter
        (fun g => g.name == destFileName lastUpdated) with _ | ⟨x, xs⟩
    · rw [hfe] at hmemEq
      simp at hmemEq
    · have hx : x ∈ (cache.filter (fun g => strEndsWith g.name ".pwr")).filter
          (fun g => g.name == destFileName lastUpdated) := by
        rw [hfe]
        exact List.mem_cons_self x xs
      obtain ⟨hxpw, hxname⟩ := List.mem_filter.mp hx
      have hxc : x ∈ cache := (List.mem_filter.mp hxpw).1
      have hxf : x = f := by
        apply List.inj_on_of_nodup_map hnd hxc hf
        rw [hname]
        exact eq_of_beq hxname
      subst hxf
      have hcands : pwrCandidates cache (destFileName lastUpdated) =
          x :: (xs ++ (cache.filter (fun g => strEndsWith g.name ".pwr")).filter
            (fun g => g.name != destFileName lastUpdated)) := by
        simp only [pwrCandidates]
        rw [if_pos hany, hfe, List.cons_append]
      have hscan2 : scanForValid (pwrCandidates cache (destFileName lastUpdated)) =
          (some x, []) := by
        rw [hcands]
        simp only [scanForValid, hval, if_true]
      constructor
      · simp only [downloadPatch, hscan2]
      · simp only [downloadPatch, hscan2]
        exact hname
  · intro hall
    have hallc : ∀ g ∈ pwrCandidates cache (destFileName lastUpdated),
        validatePwrFile g = false := by
      intro g hg
      obtain ⟨hc, hp⟩ := (mem_pwrCandidates _ _ _).mp hg
      exact hall g hc hp
    have hscan3 := scanForValid_all_invalid _ hallc
    refine ⟨by simp only [downloadPatch, hscan3], by simp only [downloadPatch, hscan3], ?_⟩
    intro f hf hp _
    left
    simp only [downloadPatch, hscan3]
    exact List.mem_map.mpr ⟨f, (mem_pwrCandidates _ _ _).mpr ⟨hf, hp⟩, rfl⟩

/-- Witness for C1's amended theorem: the valid current-key artifact is
reused without downloading. -/
theorem patch_cache_reuse_policy_witness :
    (downloadPatch [⟨"temp_222.pwr", true, 10485760, true, 5⟩,
        ⟨"temp_111.pwr", true, 3, true, 9⟩] "222").downloaded = false ∧
    (downloadPatch [⟨"temp_222.pwr", true, 10485760, true, 5⟩,
        ⟨"temp_111.pwr", true, 3, true, 9⟩] "222").returnedPath = destFileName "222" := by
  exact (patch_cache_reuse_policy
      [⟨"temp_222.pwr", true, 10485760, true, 5⟩, ⟨"temp_111.pwr", true, 3, true, 9⟩]
      "222" (by decide)).2.1
    ⟨"temp_222.pwr", true, 10485760, true, 5⟩ (by simp) rfl (by decide)

end Luyumi
